import Mathlib

/-!
# ForAeons/ternary: a verification development

Shallow embedding of `ternary.go` (package `ternary`) and of the call shapes
exercised by `ternary_test.go`.

Modelling decisions, all taken from the Go source and the Go language:

* `Op` is a pure, total Go function; it is a Lean function.
* A value of Go type `func() T` is either the nil function value or a closure.
  A closure body is a computation over the state `σ` of the variables it
  captures; it may panic, and the writes it made before panicking stay visible,
  so a body maps a state to an outcome *and* a state.  Bodies are Lean
  functions, hence terminating: a producer that loops forever is outside the
  model.
* `*TernaryIf[T]`, `*TernaryThen[T]` and `*LazyTernaryThen[T]` are pointers into
  a heap of holders.  `&S{...}` allocates a fresh cell; reading a field through
  a pointer loads the cell; the nil pointer has no cell.
* Calling a nil function value and reading a field through a nil pointer both
  raise the Go run-time panic "invalid memory address or nil pointer
  dereference".
* In the first model a closure works on the caller state only.  What happens to
  holder cells while caller code runs is settled in the second model, section
  "Holders shared with caller code", where a closure may write every cell.
-/

namespace Ternary

/-! ## Go run-time model -/

/-- Panics of a Go computation: the run-time error "invalid memory address or
nil pointer dereference", or a panic raised by caller-supplied code with a
payload of type `ε`. -/
inductive Panic (ε : Type) where
  | nilDereference : Panic ε
  | raised (e : ε) : Panic ε
  deriving DecidableEq, Repr

/-- Computations over a state `S` that return an `α` or panic.  The state is
returned in both cases. -/
def Exec (ε S α : Type) : Type := S → Except (Panic ε) α × S

/-- Normal return of a value. -/
def Exec.pure {ε S α : Type} (a : α) : Exec ε S α := fun s => (Except.ok a, s)

/-- Sequencing: a panic of the first computation skips the second. -/
def Exec.bind {ε S α β : Type} (m : Exec ε S α) (f : α → Exec ε S β) : Exec ε S β :=
  fun s =>
    match m s with
    | (Except.ok a, s1) => f a s1
    | (Except.error e, s1) => (Except.error e, s1)

instance instMonadExec (ε S : Type) : Monad (Exec ε S) where
  pure := Exec.pure
  bind := Exec.bind

/-- Values of Go type `func() T` whose closures capture variables of state `σ`. -/
inductive Func (σ ε T : Type) where
  | nil : Func σ ε T
  | closure (body : Exec ε σ T) : Func σ ε T

/-- The Go call expression `f()`. -/
def Func.call {σ ε T : Type} (f : Func σ ε T) : Exec ε σ T :=
  match f with
  | Func.nil => fun s => (Except.error Panic.nilDereference, s)
  | Func.closure body => body

/-- Go pointers to cells of type `α`: nil, or the address of a cell. -/
inductive Ptr (α : Type) where
  | nil : Ptr α
  | addr (a : Nat) : Ptr α
  deriving DecidableEq, Repr

/-- The cell a pointer refers to in a store, if any.  Go has no dangling
pointers; an address past the end of the store is given no cell, like nil. -/
def Ptr.load {α : Type} (p : Ptr α) (store : List α) : Option α :=
  match p with
  | Ptr.nil => none
  | Ptr.addr a => store[a]?

/-! ## `ternary.go` -/

/-- Go `func Op[T any](cond bool, trueVal T, falseVal T) T`. -/
def Op {T : Type} (cond : Bool) (trueVal falseVal : T) : T :=
  if cond then trueVal else falseVal

/-- Go `func LazyOp[T any](cond bool, trueVal, falseVal func() T) T`. -/
def LazyOp {σ ε T : Type} (cond : Bool) (trueVal falseVal : Func σ ε T) : Exec ε σ T :=
  if cond then trueVal.call else falseVal.call

/-- Go `type TernaryIf[T any] struct { condition bool }`. -/
structure TernaryIf (T : Type) where
  condition : Bool
  deriving DecidableEq, Repr

/-- Go `type TernaryThen[T any] struct { condition bool; trueVal T }`. -/
structure TernaryThen (T : Type) where
  condition : Bool
  trueVal : T
  deriving DecidableEq, Repr

/-- Go `type LazyTernaryThen[T any] struct { condition bool; trueVal func() T }`. -/
structure LazyTernaryThen (σ ε T : Type) where
  condition : Bool
  trueVal : Func σ ε T

/-- Program state: the variables captured by caller-supplied closures, and the
heap cells of the three holder types. -/
structure World (σ ε T : Type) where
  caller : σ
  ifs : List (TernaryIf T)
  thens : List (TernaryThen T)
  lazyThens : List (LazyTernaryThen σ ε T)

/-- Run a caller-supplied computation on the caller part of the world. -/
def World.runCaller {σ ε T α : Type} (m : Exec ε σ α) : Exec ε (World σ ε T) α :=
  fun w =>
    match m w.caller with
    | (r, s) => (r, { w with caller := s })

/-- Read the cell behind a `*TernaryIf[T]`. -/
def World.loadIf {σ ε T : Type} (i : Ptr (TernaryIf T)) : Exec ε (World σ ε T) (TernaryIf T) :=
  fun w =>
    match i.load w.ifs with
    | some c => (Except.ok c, w)
    | none => (Except.error Panic.nilDereference, w)

/-- Read the cell behind a `*TernaryThen[T]`. -/
def World.loadThen {σ ε T : Type} (t : Ptr (TernaryThen T)) :
    Exec ε (World σ ε T) (TernaryThen T) :=
  fun w =>
    match t.load w.thens with
    | some c => (Except.ok c, w)
    | none => (Except.error Panic.nilDereference, w)

/-- Read the cell behind a `*LazyTernaryThen[T]`. -/
def World.loadLazyThen {σ ε T : Type} (t : Ptr (LazyTernaryThen σ ε T)) :
    Exec ε (World σ ε T) (LazyTernaryThen σ ε T) :=
  fun w =>
    match t.load w.lazyThens with
    | some c => (Except.ok c, w)
    | none => (Except.error Panic.nilDereference, w)

/-- Go `&TernaryIf[T]{...}`: allocate a fresh cell and return its address. -/
def World.newIf {σ ε T : Type} (c : TernaryIf T) : Exec ε (World σ ε T) (Ptr (TernaryIf T)) :=
  fun w => (Except.ok (Ptr.addr w.ifs.length), { w with ifs := w.ifs ++ [c] })

/-- Go `&TernaryThen[T]{...}`: allocate a fresh cell and return its address. -/
def World.newThen {σ ε T : Type} (c : TernaryThen T) :
    Exec ε (World σ ε T) (Ptr (TernaryThen T)) :=
  fun w => (Except.ok (Ptr.addr w.thens.length), { w with thens := w.thens ++ [c] })

/-- Go `&LazyTernaryThen[T]{...}`: allocate a fresh cell and return its address. -/
def World.newLazyThen {σ ε T : Type} (c : LazyTernaryThen σ ε T) :
    Exec ε (World σ ε T) (Ptr (LazyTernaryThen σ ε T)) :=
  fun w => (Except.ok (Ptr.addr w.lazyThens.length), { w with lazyThens := w.lazyThens ++ [c] })

/-- Go `func If[T any](cond bool) *TernaryIf[T]`. -/
def If {σ ε T : Type} (cond : Bool) : Exec ε (World σ ε T) (Ptr (TernaryIf T)) :=
  World.newIf { condition := cond }

/-- Go `func (i *TernaryIf[T]) Then(trueVal T) *TernaryThen[T]`. -/
def TernaryIf.Then {σ ε T : Type} (i : Ptr (TernaryIf T)) (trueVal : T) :
    Exec ε (World σ ε T) (Ptr (TernaryThen T)) := do
  let self ← World.loadIf i
  World.newThen { condition := self.condition, trueVal := trueVal }

/-- Go `func (t *TernaryThen[T]) Else(falseVal T) T`. -/
def TernaryThen.Else {σ ε T : Type} (t : Ptr (TernaryThen T)) (falseVal : T) :
    Exec ε (World σ ε T) T := do
  let self ← World.loadThen t
  pure (Op self.condition self.trueVal falseVal)

/-- Go `func (i *TernaryIf[T]) LThen(trueVal func() T) *LazyTernaryThen[T]`. -/
def TernaryIf.LThen {σ ε T : Type} (i : Ptr (TernaryIf T)) (trueVal : Func σ ε T) :
    Exec ε (World σ ε T) (Ptr (LazyTernaryThen σ ε T)) := do
  let self ← World.loadIf i
  World.newLazyThen { condition := self.condition, trueVal := trueVal }

/-- Go `func (t *LazyTernaryThen[T]) LElse(falseVal func() T) T`. -/
def LazyTernaryThen.LElse {σ ε T : Type} (t : Ptr (LazyTernaryThen σ ε T))
    (falseVal : Func σ ε T) : Exec ε (World σ ε T) T := do
  let self ← World.loadLazyThen t
  World.runCaller (LazyOp self.condition self.trueVal falseVal)

/-! ## Call shapes of `ternary_test.go` -/

/-- The expression `If[T](cond).Then(a).Else(b)`. -/
def eagerChain {σ ε T : Type} (cond : Bool) (a b : T) : Exec ε (World σ ε T) T := do
  let i ← If cond
  let t ← TernaryIf.Then i a
  TernaryThen.Else t b

/-- The expression `If[T](cond).LThen(pa)`, the chain before it is resolved. -/
def lazyBuild {σ ε T : Type} (cond : Bool) (pa : Func σ ε T) :
    Exec ε (World σ ε T) (Ptr (LazyTernaryThen σ ε T)) := do
  let i ← If cond
  TernaryIf.LThen i pa

/-- The expression `If[T](cond).LThen(pa).LElse(pb)`. -/
def lazyChain {σ ε T : Type} (cond : Bool) (pa pb : Func σ ε T) : Exec ε (World σ ε T) T := do
  let t ← lazyBuild cond pa
  LazyTernaryThen.LElse t pb

/-- The expression `If[T](c1).Then(a).Else(If[T](c2).Then(b).Else(c))` of
`TestNestedTernary`.  Go evaluates the receiver `If(c1).Then(a)` first, then the
argument `If(c2).Then(b).Else(c)`, then the outer `Else`. -/
def nestedChain {σ ε T : Type} (c1 : Bool) (a : T) (c2 : Bool) (b c : T) :
    Exec ε (World σ ε T) T := do
  let i ← If c1
  let t ← TernaryIf.Then i a
  let inner ← eagerChain c2 b c
  TernaryThen.Else t inner

/-- Captured variables of `TestLazyOp` and `TestLazyTernaryIfLThenLElse`. -/
structure Flags where
  calledTrue : Bool
  calledFalse : Bool
  deriving DecidableEq, Repr

/-- Test closure `func() int { calledTrue = true; return 10 }`. -/
def Flags.trueVal {ε : Type} : Func Flags ε Int :=
  Func.closure fun s => (Except.ok 10, { s with calledTrue := true })

/-- Test closure `func() int { calledFalse = true; return 20 }`. -/
def Flags.falseVal {ε : Type} : Func Flags ε Int :=
  Func.closure fun s => (Except.ok 20, { s with calledFalse := true })

/-- The state set up by the test before each call: both flags false. -/
def Flags.init : Flags := { calledTrue := false, calledFalse := false }

/-- An empty heap around a caller state. -/
def World.init {σ ε T : Type} (s : σ) : World σ ε T :=
  { caller := s, ifs := [], thens := [], lazyThens := [] }

/-- Invocation counters kept next to the caller state, one per branch. -/
structure Calls where
  trueCalls : Nat
  falseCalls : Nat
  deriving DecidableEq, Repr

/-- A true-branch producer with body `pa` that also counts its invocations. -/
def Calls.countTrue {σ ε T : Type} (pa : Exec ε σ T) : Func (σ × Calls) ε T :=
  Func.closure fun s =>
    match pa s.1 with
    | (r, s1) => (r, (s1, { s.2 with trueCalls := s.2.trueCalls + 1 }))

/-- A false-branch producer with body `pb` that also counts its invocations. -/
def Calls.countFalse {σ ε T : Type} (pb : Exec ε σ T) : Func (σ × Calls) ε T :=
  Func.closure fun s =>
    match pb s.1 with
    | (r, s1) => (r, (s1, { s.2 with falseCalls := s.2.falseCalls + 1 }))

/-- A producer body that sets `calledTrue` and then panics with payload `7`:
`func() int { calledTrue = true; panic(7) }`. -/
def Flags.failing : Exec Nat Flags Int :=
  fun s => (Except.error (Panic.raised 7), { s with calledTrue := true })

/-- The body of `func() int { calledFalse = true; return 20 }`. -/
def Flags.falseBody {ε : Type} : Exec ε Flags Int :=
  fun s => (Except.ok 20, { s with calledFalse := true })

/-- The state after `h := If[int](c)` on an empty heap; `h` is address 0. -/
def World.afterIf (c : Bool) : World Flags Nat Int :=
  (If c (World.init Flags.init)).2

/-- The state after `t := If[int](c).Then(a)` on an empty heap; `t` is address 0
and no lazy holder exists. -/
def World.afterThen (c : Bool) (a : Int) : World Flags Nat Int :=
  (TernaryIf.Then (Ptr.addr 0) a (World.afterIf c)).2

/-- The state after `l := If[int](c).LThen(p)` on an empty heap; `l` is address 0
and no eager then-holder exists. -/
def World.afterLThen (c : Bool) (p : Func Flags Nat Int) : World Flags Nat Int :=
  (lazyBuild c p (World.init Flags.init)).2

/-- The Go function literal `func() T { return a }`: a closure that returns `a`
and writes no variable. -/
def Func.returning {σ ε T : Type} (a : T) : Func σ ε T :=
  Func.closure fun s => (Except.ok a, s)

/-- What a caller observes of a run: the outcome and the caller state.  Heap
cells that are no longer referenced are not observable in Go. -/
def World.observe {σ ε T α : Type} (r : Except (Panic ε) α × World σ ε T) :
    Except (Panic ε) α × σ :=
  (r.1, r.2.caller)

/-! ## Holders shared with caller code

Above, a producer works on the caller state and cannot reach a holder cell.  In
Go it can: a closure may capture a pointer to a holder and overwrite the cell,
and `*t = ternary.LazyTernaryThen[int]{}` is legal outside the package.  For
what happens to holder cells, function values are therefore references to the
closures of the program, and a closure body is a computation over the whole
state, holder cells included.  `LazyOp`, `Func.call`, `Op`, `TernaryIf` and
`TernaryThen` are the ones above. -/

namespace Shared

/-- Values of Go type `func() T` as references: nil, or closure number `id` of
the program. -/
inductive FuncRef where
  | nil : FuncRef
  | closure (id : Nat) : FuncRef
  deriving DecidableEq, Repr

/-- Go `type LazyTernaryThen[T any] struct { condition bool; trueVal func() T }`. -/
structure LazyTernaryThen where
  condition : Bool
  trueVal : FuncRef
  deriving DecidableEq, Repr

/-- Program state: caller variables and the heap cells of the three holder
types.  `ε` is the payload type of the panics raised on this state. -/
structure World (σ ε T : Type) where
  caller : σ
  ifs : List (TernaryIf T)
  thens : List (TernaryThen T)
  lazyThens : List LazyTernaryThen

/-- The closures of a program: closure `id` has body `prog id`, which may read
and write the whole state. -/
def Program (σ ε T : Type) : Type := Nat → Exec ε (World σ ε T) T

/-- The function value behind a reference. -/
def FuncRef.resolve {σ ε T : Type} (prog : Program σ ε T) (f : FuncRef) :
    Func (World σ ε T) ε T :=
  match f with
  | FuncRef.nil => Func.nil
  | FuncRef.closure id => Func.closure (prog id)

/-- Read the cell behind a `*TernaryIf[T]`. -/
def World.loadIf {σ ε T : Type} (i : Ptr (TernaryIf T)) : Exec ε (World σ ε T) (TernaryIf T) :=
  fun w =>
    match i.load w.ifs with
    | some c => (Except.ok c, w)
    | none => (Except.error Panic.nilDereference, w)

/-- Read the cell behind a `*TernaryThen[T]`. -/
def World.loadThen {σ ε T : Type} (t : Ptr (TernaryThen T)) :
    Exec ε (World σ ε T) (TernaryThen T) :=
  fun w =>
    match t.load w.thens with
    | some c => (Except.ok c, w)
    | none => (Except.error Panic.nilDereference, w)

/-- Read the cell behind a `*LazyTernaryThen[T]`. -/
def World.loadLazyThen {σ ε T : Type} (t : Ptr LazyTernaryThen) :
    Exec ε (World σ ε T) LazyTernaryThen :=
  fun w =>
    match t.load w.lazyThens with
    | some c => (Except.ok c, w)
    | none => (Except.error Panic.nilDereference, w)

/-- Go `&TernaryIf[T]{...}`: allocate a fresh cell and return its address. -/
def World.newIf {σ ε T : Type} (c : TernaryIf T) : Exec ε (World σ ε T) (Ptr (TernaryIf T)) :=
  fun w => (Except.ok (Ptr.addr w.ifs.length), { w with ifs := w.ifs ++ [c] })

/-- Go `&TernaryThen[T]{...}`: allocate a fresh cell and return its address. -/
def World.newThen {σ ε T : Type} (c : TernaryThen T) :
    Exec ε (World σ ε T) (Ptr (TernaryThen T)) :=
  fun w => (Except.ok (Ptr.addr w.thens.length), { w with thens := w.thens ++ [c] })

/-- Go `&LazyTernaryThen[T]{...}`: allocate a fresh cell and return its address. -/
def World.newLazyThen {σ ε T : Type} (c : LazyTernaryThen) :
    Exec ε (World σ ε T) (Ptr LazyTernaryThen) :=
  fun w => (Except.ok (Ptr.addr w.lazyThens.length), { w with lazyThens := w.lazyThens ++ [c] })

/-- Go `func If[T any](cond bool) *TernaryIf[T]`. -/
def If {σ ε T : Type} (cond : Bool) : Exec ε (World σ ε T) (Ptr (TernaryIf T)) :=
  World.newIf { condition := cond }

/-- Go `func (i *TernaryIf[T]) Then(trueVal T) *TernaryThen[T]`. -/
def TernaryIf.Then {σ ε T : Type} (i : Ptr (TernaryIf T)) (trueVal : T) :
    Exec ε (World σ ε T) (Ptr (TernaryThen T)) := do
  let self ← World.loadIf i
  World.newThen { condition := self.condition, trueVal := trueVal }

/-- Go `func (t *TernaryThen[T]) Else(falseVal T) T`. -/
def TernaryThen.Else {σ ε T : Type} (t : Ptr (TernaryThen T)) (falseVal : T) :
    Exec ε (World σ ε T) T := do
  let self ← World.loadThen t
  pure (Op self.condition self.trueVal falseVal)

/-- Go `func (i *TernaryIf[T]) LThen(trueVal func() T) *LazyTernaryThen[T]`. -/
def TernaryIf.LThen {σ ε T : Type} (i : Ptr (TernaryIf T)) (trueVal : FuncRef) :
    Exec ε (World σ ε T) (Ptr LazyTernaryThen) := do
  let self ← World.loadIf i
  World.newLazyThen { condition := self.condition, trueVal := trueVal }

/-- Go `func (t *LazyTernaryThen[T]) LElse(falseVal func() T) T`.  The fields of
`t` are read before `LazyOp` is called. -/
def LazyTernaryThen.LElse {σ ε T : Type} (prog : Program σ ε T) (t : Ptr LazyTernaryThen)
    (falseVal : FuncRef) : Exec ε (World σ ε T) T := do
  let self ← World.loadLazyThen t
  LazyOp self.condition (self.trueVal.resolve prog) (falseVal.resolve prog)

/-- An empty heap around a caller state. -/
def World.init {σ ε T : Type} (s : σ) : World σ ε T :=
  { caller := s, ifs := [], thens := [], lazyThens := [] }

/-- The expression `If[T](cond).LThen(pa)`. -/
def lazyBuild {σ ε T : Type} (cond : Bool) (pa : FuncRef) :
    Exec ε (World σ ε T) (Ptr LazyTernaryThen) := do
  let i ← If cond
  TernaryIf.LThen i pa

/-- Two resolutions of one condition holder: `h := If(cond)`, then
`h.Then(a1).Else(b1)` and afterwards `h.Then(a2).Else(b2)`. -/
def reuseChain {σ ε T : Type} (cond : Bool) (a1 b1 a2 b2 : T) :
    Exec ε (World σ ε T) (T × T) := do
  let h ← If cond
  let t1 ← TernaryIf.Then h a1
  let r1 ← TernaryThen.Else t1 b1
  let t2 ← TernaryIf.Then h a2
  let r2 ← TernaryThen.Else t2 b2
  pure (r1, r2)

/-- A program whose closure 0 is
`func() int { *t = ternary.LazyTernaryThen[int]{}; return 10 }`, with `t` the
lazy holder at address 0, and whose other closures are
`func() int { return 20 }`. -/
def overwriting : Program Unit Nat Int := fun id =>
  match id with
  | 0 => fun w =>
    (Except.ok 10,
      { w with lazyThens := w.lazyThens.set 0 { condition := false, trueVal := FuncRef.nil } })
  | _ => fun w => (Except.ok 20, w)

/-- The state after `h := If[int](c)` on an empty heap; `h` is address 0 and no
then-holder exists. -/
def World.afterIf (c : Bool) : World Unit Nat Int :=
  (If c (World.init ())).2

/-- The state after `t := If[int](c).Then(a)` on an empty heap; `t` is address 0. -/
def World.afterThen (c : Bool) (a : Int) : World Unit Nat Int :=
  (TernaryIf.Then (Ptr.addr 0) a (World.afterIf c)).2

/-- The state after `l := If[int](c).LThen(p)` on an empty heap; `l` is address 0. -/
def World.afterLThen (c : Bool) (p : FuncRef) : World Unit Nat Int :=
  (lazyBuild c p (World.init ())).2

end Shared

/-! ## Run lemmas -/

theorem Ptr.load_fresh {α : Type} (xs : List α) (x : α) :
    (Ptr.addr xs.length).load (xs ++ [x]) = some x := by
  simp [Ptr.load]

theorem Ptr.load_append {α : Type} (p : Ptr α) (xs ys : List α) (c : α)
    (h : p.load xs = some c) : p.load (xs ++ ys) = some c := by
  cases p with
  | nil => simp [Ptr.load] at h
  | addr a =>
    simp only [Ptr.load] at h ⊢
    have hlt : a < xs.length := by
      by_contra hge
      rw [List.getElem?_eq_none (Nat.le_of_not_lt hge)] at h
      exact Option.noConfusion h
    rw [List.getElem?_append_left hlt]
    exact h

theorem Exec.bind_eq {ε S α β : Type} (m : Exec ε S α) (f : α → Exec ε S β) :
    (m >>= f) = Exec.bind m f := rfl

theorem Exec.pure_eq {ε S α : Type} (a : α) :
    (Pure.pure a : Exec ε S α) = Exec.pure a := rfl

theorem If_run {σ ε T : Type} (cond : Bool) (w : World σ ε T) :
    If cond w = (Except.ok (Ptr.addr w.ifs.length),
      { w with ifs := w.ifs ++ [{ condition := cond }] }) := rfl

theorem Then_run {σ ε T : Type} (i : Ptr (TernaryIf T)) (c : TernaryIf T) (a : T)
    (w : World σ ε T) (h : i.load w.ifs = some c) :
    TernaryIf.Then i a w = (Except.ok (Ptr.addr w.thens.length),
      { w with thens := w.thens ++ [{ condition := c.condition, trueVal := a }] }) := by
  simp [TernaryIf.Then, Exec.bind_eq, Exec.bind, World.loadIf, World.newThen, h]

theorem Then_nil {σ ε T : Type} (i : Ptr (TernaryIf T)) (a : T)
    (w : World σ ε T) (h : i.load w.ifs = none) :
    TernaryIf.Then i a w = (Except.error Panic.nilDereference, w) := by
  simp [TernaryIf.Then, Exec.bind_eq, Exec.bind, World.loadIf, h]

theorem LThen_run {σ ε T : Type} (i : Ptr (TernaryIf T)) (c : TernaryIf T) (p : Func σ ε T)
    (w : World σ ε T) (h : i.load w.ifs = some c) :
    TernaryIf.LThen i p w = (Except.ok (Ptr.addr w.lazyThens.length),
      { w with lazyThens := w.lazyThens ++ [{ condition := c.condition, trueVal := p }] }) := by
  simp [TernaryIf.LThen, Exec.bind_eq, Exec.bind, World.loadIf, World.newLazyThen, h]

theorem LThen_nil {σ ε T : Type} (i : Ptr (TernaryIf T)) (p : Func σ ε T)
    (w : World σ ε T) (h : i.load w.ifs = none) :
    TernaryIf.LThen i p w = (Except.error Panic.nilDereference, w) := by
  simp [TernaryIf.LThen, Exec.bind_eq, Exec.bind, World.loadIf, h]

theorem Else_run {σ ε T : Type} (t : Ptr (TernaryThen T)) (c : TernaryThen T) (b : T)
    (w : World σ ε T) (h : t.load w.thens = some c) :
    TernaryThen.Else t b w = (Except.ok (Op c.condition c.trueVal b), w) := by
  simp [TernaryThen.Else, Exec.bind_eq, Exec.bind, Exec.pure_eq, Exec.pure, World.loadThen, h]

theorem Else_nil {σ ε T : Type} (t : Ptr (TernaryThen T)) (b : T)
    (w : World σ ε T) (h : t.load w.thens = none) :
    TernaryThen.Else t b w = (Except.error Panic.nilDereference, w) := by
  simp [TernaryThen.Else, Exec.bind_eq, Exec.bind, World.loadThen, h]

theorem LElse_run {σ ε T : Type} (t : Ptr (LazyTernaryThen σ ε T)) (c : LazyTernaryThen σ ε T)
    (q : Func σ ε T) (w : World σ ε T) (h : t.load w.lazyThens = some c) :
    LazyTernaryThen.LElse t q w =
      ((LazyOp c.condition c.trueVal q w.caller).1,
        { w with caller := (LazyOp c.condition c.trueVal q w.caller).2 }) := by
  simp [LazyTernaryThen.LElse, Exec.bind_eq, Exec.bind, World.loadLazyThen, World.runCaller, h]

theorem LElse_nil {σ ε T : Type} (t : Ptr (LazyTernaryThen σ ε T))
    (q : Func σ ε T) (w : World σ ε T) (h : t.load w.lazyThens = none) :
    LazyTernaryThen.LElse t q w = (Except.error Panic.nilDereference, w) := by
  simp [LazyTernaryThen.LElse, Exec.bind_eq, Exec.bind, World.loadLazyThen, h]

theorem LazyOp_run {σ ε T : Type} (cond : Bool) (pa pb : Func σ ε T) (s : σ) :
    LazyOp cond pa pb s = if cond then pa.call s else pb.call s := by
  cases cond <;> rfl

theorem eagerChain_run {σ ε T : Type} (cond : Bool) (a b : T) (w : World σ ε T) :
    eagerChain cond a b w = (Except.ok (Op cond a b),
      { w with ifs := w.ifs ++ [{ condition := cond }],
               thens := w.thens ++ [{ condition := cond, trueVal := a }] }) := by
  have h1 := Then_run (Ptr.addr w.ifs.length) { condition := cond } a
    ({ w with ifs := w.ifs ++ [{ condition := cond }] } : World σ ε T)
    (Ptr.load_fresh w.ifs _)
  have h2 := Else_run (Ptr.addr w.thens.length) { condition := cond, trueVal := a } b
    ({ w with ifs := w.ifs ++ [{ condition := cond }],
              thens := w.thens ++ [{ condition := cond, trueVal := a }] } : World σ ε T)
    (Ptr.load_fresh w.thens _)
  simp only [eagerChain, Exec.bind_eq, Exec.bind, If_run, h1, h2]

theorem lazyBuild_run {σ ε T : Type} (cond : Bool) (pa : Func σ ε T) (w : World σ ε T) :
    lazyBuild cond pa w = (Except.ok (Ptr.addr w.lazyThens.length),
      { w with ifs := w.ifs ++ [{ condition := cond }],
               lazyThens := w.lazyThens ++ [{ condition := cond, trueVal := pa }] }) := by
  have h1 := LThen_run (Ptr.addr w.ifs.length) { condition := cond } pa
    ({ w with ifs := w.ifs ++ [{ condition := cond }] } : World σ ε T)
    (Ptr.load_fresh w.ifs _)
  simp only [lazyBuild, Exec.bind_eq, Exec.bind, If_run, h1]

theorem lazyChain_run {σ ε T : Type} (cond : Bool) (pa pb : Func σ ε T) (w : World σ ε T) :
    lazyChain cond pa pb w = ((LazyOp cond pa pb w.caller).1,
      { w with caller := (LazyOp cond pa pb w.caller).2,
               ifs := w.ifs ++ [{ condition := cond }],
               lazyThens := w.lazyThens ++ [{ condition := cond, trueVal := pa }] }) := by
  have h2 := LElse_run (Ptr.addr w.lazyThens.length) { condition := cond, trueVal := pa } pb
    ({ w with ifs := w.ifs ++ [{ condition := cond }],
              lazyThens := w.lazyThens ++ [{ condition := cond, trueVal := pa }] } : World σ ε T)
    (Ptr.load_fresh w.lazyThens _)
  simp only [lazyChain, Exec.bind_eq, Exec.bind, lazyBuild_run, h2]

theorem counted_LazyOp_run {σ ε T : Type} (cond : Bool) (pa pb : Exec ε σ T) (s : σ) (k : Calls) :
    LazyOp cond (Calls.countTrue pa) (Calls.countFalse pb) (s, k) =
      if cond then
        ((pa s).1, ((pa s).2, { trueCalls := k.trueCalls + 1, falseCalls := k.falseCalls }))
      else
        ((pb s).1, ((pb s).2, { trueCalls := k.trueCalls, falseCalls := k.falseCalls + 1 })) := by
  cases cond <;> rfl

/-! ## Claims -/

/-- C1: `Op(true, a, b)` is `a` and `Op(false, a, b)` is `b`, that is
`Op(cond, a, b)` is `a` when `cond` holds and `b` otherwise; in particular
`Op(5 > 3, 10, 20) = 10` and `Op(5 < 3, 10, 20) = 20`. -/
theorem Op_selects {T : Type} (a b : T) :
    Op true a b = a ∧ Op false a b = b ∧
    (∀ cond : Bool, Op cond a b = if cond = true then a else b) ∧
    Op (decide ((5 : Int) > 3)) (10 : Int) 20 = 10 ∧
    Op (decide ((5 : Int) < 3)) (10 : Int) 20 = 20 := by
  refine ⟨rfl, rfl, ?_, by decide, by decide⟩
  intro cond
  cases cond <;> rfl

/-- C2: `LazyOp(cond, pa, pb)` invokes exactly one producer exactly once, `pa`
and never `pb` when `cond` is true, `pb` and never `pa` when `cond` is false,
and returns the outcome of that one invocation.  Invocations are recorded by
counters next to the caller state; the second part says the call is one run of
the selected body from the initial state; the last two are `TestLazyOp`. -/
theorem LazyOp_invokes_selected_once {σ ε T : Type} (cond : Bool) (pa pb : Exec ε σ T)
    (s : σ) (k : Calls) :
    (LazyOp cond (Calls.countTrue pa) (Calls.countFalse pb) (s, k) =
      if cond then
        ((pa s).1, ((pa s).2, { trueCalls := k.trueCalls + 1, falseCalls := k.falseCalls }))
      else
        ((pb s).1, ((pb s).2, { trueCalls := k.trueCalls, falseCalls := k.falseCalls + 1 }))) ∧
    (LazyOp cond (Func.closure pa) (Func.closure pb) s = if cond then pa s else pb s) ∧
    ((LazyOp true Flags.trueVal Flags.falseVal Flags.init : Except (Panic ε) Int × Flags) =
      (Except.ok 10, { calledTrue := true, calledFalse := false })) ∧
    ((LazyOp false Flags.trueVal Flags.falseVal Flags.init : Except (Panic ε) Int × Flags) =
      (Except.ok 20, { calledTrue := false, calledFalse := true })) := by
  refine ⟨counted_LazyOp_run cond pa pb s k, ?_, rfl, rfl⟩
  cases cond <;> rfl

/-- C3: from every program state, `If(cond).Then(a).Else(b)` returns normally
the value `Op(cond, a, b)` and leaves the caller state alone; in particular
`If(true).Then(10).Else(20) = 10` and `If(false).Then(10).Else(20) = 20`. -/
theorem eagerChain_eq_Op {σ ε T : Type} (cond : Bool) (a b : T) (w : World σ ε T) (s : σ) :
    World.observe (eagerChain cond a b w) = (Except.ok (Op cond a b), w.caller) ∧
    (eagerChain true (10 : Int) 20 (World.init s : World σ ε Int)).1 = Except.ok 10 ∧
    (eagerChain false (10 : Int) 20 (World.init s : World σ ε Int)).1 = Except.ok 20 := by
  refine ⟨?_, ?_, ?_⟩
  · rw [eagerChain_run]; rfl
  · rw [eagerChain_run]; rfl
  · rw [eagerChain_run]; rfl

/-- C4: `If(cond).LThen(pa).LElse(pb)` has the outcome of `LazyOp(cond, pa, pb)`
and leaves the caller state as `LazyOp(cond, pa, pb)` does, so it invokes the
producer selected by `cond` once and never the other (counters as in C2);
building the chain with `If` and `LThen` returns a holder and leaves the caller
state untouched.  The last two parts are `TestLazyTernaryIfLThenLElse`. -/
theorem lazyChain_eq_LazyOp {σ ε T : Type} (cond : Bool) (pa pb : Func σ ε T)
    (w : World σ ε T) (qa qb : Exec ε σ T) (wc : World (σ × Calls) ε T) :
    World.observe (lazyChain cond pa pb w) = LazyOp cond pa pb w.caller ∧
    World.observe (lazyBuild cond pa w) = (Except.ok (Ptr.addr w.lazyThens.length), w.caller) ∧
    (World.observe (lazyChain cond (Calls.countTrue qa) (Calls.countFalse qb) wc) =
      if cond then
        ((qa wc.caller.1).1, ((qa wc.caller.1).2,
          { trueCalls := wc.caller.2.trueCalls + 1, falseCalls := wc.caller.2.falseCalls }))
      else
        ((qb wc.caller.1).1, ((qb wc.caller.1).2,
          { trueCalls := wc.caller.2.trueCalls, falseCalls := wc.caller.2.falseCalls + 1 }))) ∧
    (World.observe (lazyChain true Flags.trueVal Flags.falseVal
        (World.init Flags.init : World Flags ε Int)) =
      (Except.ok 10, { calledTrue := true, calledFalse := false })) ∧
    (World.observe (lazyChain false Flags.trueVal Flags.falseVal
        (World.init Flags.init : World Flags ε Int)) =
      (Except.ok 20, { calledTrue := false, calledFalse := true })) := by
  refine ⟨?_, ?_, ?_, ?_, ?_⟩
  · rw [lazyChain_run]; rfl
  · rw [lazyBuild_run]; rfl
  · rw [lazyChain_run, ← counted_LazyOp_run cond qa qb wc.caller.1 wc.caller.2]; rfl
  · rw [lazyChain_run]; rfl
  · rw [lazyChain_run]; rfl

/-- C5, counterexample: `LazyOp(true, nil, falseVal)` with the nil function value
as selected producer panics, although no producer fails. -/
theorem LazyOp_nil_selected_panics :
    LazyOp true (Func.nil : Func Flags Empty Int) Flags.falseVal Flags.init =
      (Except.error Panic.nilDereference, Flags.init) := rfl

/-- C5, amended: `Op` returns one of its two values for every condition, and
`LazyOp` returns a result whenever the producer selected by `cond` is a closure
(not the nil function value) whose body does not fail; the other producer may be
any value of the type, nil included. -/
theorem Op_LazyOp_return {σ ε T : Type} (cond : Bool) (a b : T) (pa pb : Func σ ε T)
    (body : Exec ε σ T) (s : σ) (v : T)
    (hsel : (if cond then pa else pb) = Func.closure body)
    (hok : (body s).1 = Except.ok v) :
    (∃ r : T, Op cond a b = r ∧ (r = a ∨ r = b)) ∧
    (LazyOp cond pa pb s).1 = Except.ok v := by
  constructor
  · cases cond
    · exact ⟨b, rfl, Or.inr rfl⟩
    · exact ⟨a, rfl, Or.inl rfl⟩
  · rw [LazyOp_run]
    cases cond
    · simp only [Bool.false_eq_true, if_false] at hsel ⊢
      rw [hsel]; exact hok
    · simp only [if_true] at hsel ⊢
      rw [hsel]; exact hok

/-- C5, amended, at `LazyOp(true, trueVal, nil)` of the test closures. -/
theorem Op_LazyOp_return_witness :
    (∃ r : Int, Op true 10 20 = r ∧ (r = 10 ∨ r = 20)) ∧
    (LazyOp true (Flags.trueVal : Func Flags Empty Int) Func.nil Flags.init).1 = Except.ok 10 :=
  Op_LazyOp_return true 10 20 Flags.trueVal Func.nil
    (fun s => (Except.ok 10, { s with calledTrue := true })) Flags.init 10 rfl rfl

/-- C6: if the producer selected by `cond` fails with `e`, then
`LazyOp(cond, pa, pb)` and `If(cond).LThen(pa).LElse(pb)` fail with the same
`e`; if it returns `v`, both return `v`. -/
theorem lazy_failure_propagates {σ ε T : Type} (cond : Bool) (pa pb : Exec ε σ T)
    (w : World σ ε T) :
    (∀ e : Panic ε, ((if cond then pa else pb) w.caller).1 = Except.error e →
      (LazyOp cond (Func.closure pa) (Func.closure pb) w.caller).1 = Except.error e ∧
      (lazyChain cond (Func.closure pa) (Func.closure pb) w).1 = Except.error e) ∧
    (∀ v : T, ((if cond then pa else pb) w.caller).1 = Except.ok v →
      (LazyOp cond (Func.closure pa) (Func.closure pb) w.caller).1 = Except.ok v ∧
      (lazyChain cond (Func.closure pa) (Func.closure pb) w).1 = Except.ok v) := by
  have hL : (LazyOp cond (Func.closure pa) (Func.closure pb) w.caller).1 =
      ((if cond then pa else pb) w.caller).1 := by
    cases cond <;> rfl
  have hC : (lazyChain cond (Func.closure pa) (Func.closure pb) w).1 =
      ((if cond then pa else pb) w.caller).1 := by
    rw [lazyChain_run]; exact hL
  constructor
  · intro e he
    exact ⟨hL.trans he, hC.trans he⟩
  · intro v hv
    exact ⟨hL.trans hv, hC.trans hv⟩

/-- C6 at a selected producer that panics with `7`, and at one that returns `20`. -/
theorem lazy_failure_propagates_witness :
    ((LazyOp true (Func.closure Flags.failing) (Func.closure Flags.falseBody) Flags.init).1 =
        Except.error (Panic.raised 7) ∧
      (lazyChain true (Func.closure Flags.failing) (Func.closure Flags.falseBody)
        (World.init Flags.init)).1 = Except.error (Panic.raised 7)) ∧
    ((LazyOp false (Func.closure Flags.failing) (Func.closure Flags.falseBody) Flags.init).1 =
        Except.ok 20 ∧
      (lazyChain false (Func.closure Flags.failing) (Func.closure Flags.falseBody)
        (World.init Flags.init)).1 = Except.ok 20) :=
  ⟨(lazy_failure_propagates true Flags.failing Flags.falseBody (World.init Flags.init)).1
      (Panic.raised 7) rfl,
    (lazy_failure_propagates false Flags.failing Flags.falseBody (World.init Flags.init)).2
      20 rfl⟩

theorem nestedChain_run {σ ε T : Type} (c1 : Bool) (a : T) (c2 : Bool) (b c : T)
    (w : World σ ε T) :
    nestedChain c1 a c2 b c w = (Except.ok (Op c1 a (Op c2 b c)),
      { w with ifs := (w.ifs ++ [{ condition := c1 }]) ++ [{ condition := c2 }],
               thens := (w.thens ++ [{ condition := c1, trueVal := a }]) ++
                 [{ condition := c2, trueVal := b }] }) := by
  have h1 := Then_run (Ptr.addr w.ifs.length) { condition := c1 } a
    ({ w with ifs := w.ifs ++ [{ condition := c1 }] } : World σ ε T)
    (Ptr.load_fresh w.ifs _)
  have h3 := Else_run (Ptr.addr w.thens.length) { condition := c1, trueVal := a } (Op c2 b c)
    ({ w with ifs := (w.ifs ++ [{ condition := c1 }]) ++ [{ condition := c2 }],
              thens := (w.thens ++ [{ condition := c1, trueVal := a }]) ++
                [{ condition := c2, trueVal := b }] } : World σ ε T)
    (Ptr.load_append _ _ _ _ (Ptr.load_fresh w.thens _))
  simp only [nestedChain, Exec.bind_eq, Exec.bind, If_run, h1, eagerChain_run, h3]

/-- C7: `If(false).Then("foo").Else(If(true).Then("bar").Else("baz"))` returns
"bar"; in general `If(c1).Then(a).Else(If(c2).Then(b).Else(c))` returns `a` when
`c1` is true, `b` when `c1` is false and `c2` is true, and `c` when both are
false. -/
theorem nestedChain_value {σ ε T : Type} (c1 : Bool) (a : T) (c2 : Bool) (b c : T)
    (w : World σ ε T) (ws : World σ ε String) :
    (nestedChain false "foo" true "bar" "baz" ws).1 = Except.ok "bar" ∧
    (nestedChain c1 a c2 b c w).1 =
      Except.ok (if c1 = true then a else if c2 = true then b else c) ∧
    (nestedChain true a c2 b c w).1 = Except.ok a ∧
    (nestedChain false a true b c w).1 = Except.ok b ∧
    (nestedChain false a false b c w).1 = Except.ok c := by
  refine ⟨?_, ?_, ?_, ?_, ?_⟩
  · rw [nestedChain_run]; rfl
  · rw [nestedChain_run]; cases c1 <;> cases c2 <;> rfl
  · rw [nestedChain_run]; rfl
  · rw [nestedChain_run]; rfl
  · rw [nestedChain_run]; rfl

theorem Ptr.load_length {α : Type} (xs : List α) : (Ptr.addr xs.length).load xs = none := by
  simp [Ptr.load]

/-- C8, counterexample: through a nil receiver `Then`, `LThen`, `Else` and
`LElse` all panic, and through the holder `If(true).LThen(nil)` (address 0 of the
heap, condition `true`, a nil true branch) `LElse(falseVal)` panics as well; no
producer fails in any of the five calls. -/
theorem chain_steps_panic_on_nil :
    ((TernaryIf.Then Ptr.nil (10 : Int) (World.init Flags.init : World Flags Nat Int)).1 =
        Except.error Panic.nilDereference ∧
      (TernaryIf.LThen Ptr.nil Flags.trueVal (World.init Flags.init : World Flags Nat Int)).1 =
        Except.error Panic.nilDereference ∧
      (TernaryThen.Else Ptr.nil (20 : Int) (World.init Flags.init : World Flags Nat Int)).1 =
        Except.error Panic.nilDereference ∧
      (LazyTernaryThen.LElse Ptr.nil Flags.falseVal
        (World.init Flags.init : World Flags Nat Int)).1 =
        Except.error Panic.nilDereference) ∧
    ((Ptr.addr 0).load (World.afterLThen true Func.nil).lazyThens =
        some { condition := true, trueVal := Func.nil } ∧
      (LazyTernaryThen.LElse (Ptr.addr 0) Flags.falseVal (World.afterLThen true Func.nil)).1 =
        Except.error Panic.nilDereference) :=
  ⟨⟨rfl, rfl, rfl, rfl⟩, ⟨rfl, rfl⟩⟩

/-- C8, amended: through a receiver that points to a holder (so not nil), and
whatever else the heap holds, `Then`, `LThen` and `Else` return a result without
failing, and `LElse` has the outcome of calling the producer it invokes, so it
fails only if that producer is the nil function value or fails. -/
theorem chain_steps_return {σ ε T : Type} (w : World σ ε T)
    (i : Ptr (TernaryIf T)) (ci : TernaryIf T)
    (t : Ptr (TernaryThen T)) (ct : TernaryThen T)
    (l : Ptr (LazyTernaryThen σ ε T)) (cl : LazyTernaryThen σ ε T)
    (a b : T) (p q : Func σ ε T) :
    (i.load w.ifs = some ci →
      (TernaryIf.Then i a w).1 = Except.ok (Ptr.addr w.thens.length) ∧
      (TernaryIf.LThen i p w).1 = Except.ok (Ptr.addr w.lazyThens.length)) ∧
    (t.load w.thens = some ct →
      (TernaryThen.Else t b w).1 = Except.ok (Op ct.condition ct.trueVal b)) ∧
    (l.load w.lazyThens = some cl →
      (LazyTernaryThen.LElse l q w).1 =
        ((if cl.condition = true then cl.trueVal else q).call w.caller).1 ∧
      ∀ e : Panic ε, (LazyTernaryThen.LElse l q w).1 = Except.error e →
        ((if cl.condition = true then cl.trueVal else q) = Func.nil ∧
          e = Panic.nilDereference) ∨
        ∃ body : Exec ε σ T, (if cl.condition = true then cl.trueVal else q) = Func.closure body ∧
          (body w.caller).1 = Except.error e) := by
  refine ⟨fun hi => ⟨?_, ?_⟩, fun ht => ?_, fun hl => ?_⟩
  · rw [Then_run i ci a w hi]
  · rw [LThen_run i ci p w hi]
  · rw [Else_run t ct b w ht]
  · have hrun : (LazyTernaryThen.LElse l q w).1 =
        ((if cl.condition = true then cl.trueVal else q).call w.caller).1 := by
      rw [LElse_run l cl q w hl, LazyOp_run]
      cases cl.condition <;> rfl
    refine ⟨hrun, ?_⟩
    intro e he
    rw [hrun] at he
    cases hsel : (if cl.condition = true then cl.trueVal else q) with
    | nil =>
      left
      rw [hsel] at he
      simp only [Func.call] at he
      exact ⟨rfl, (Except.error.inj he).symm⟩
    | closure body =>
      right
      rw [hsel] at he
      exact ⟨body, rfl, he⟩

/-- C8, amended, on heaps built from the empty heap: `Then` and `LThen` on
`If(true)` with no then-holder in the heap, `Else` on `If(true).Then(10)` with no
lazy holder in the heap, and `LElse` on `If(false).LThen(trueVal)` with a
false-branch producer that panics with `7`. -/
theorem chain_steps_return_witness :
    ((World.afterIf true).thens = [] ∧
      (TernaryIf.Then (Ptr.addr 0) (10 : Int) (World.afterIf true)).1 = Except.ok (Ptr.addr 0) ∧
      (TernaryIf.LThen (Ptr.addr 0) Flags.trueVal (World.afterIf true)).1 =
        Except.ok (Ptr.addr 0)) ∧
    ((TernaryThen.Else (Ptr.addr 0) (20 : Int) (World.afterThen true 10)).1 =
      Except.ok (Op true 10 20)) ∧
    ((Func.closure Flags.failing = (Func.nil : Func Flags Nat Int) ∧
        Panic.raised 7 = (Panic.nilDereference : Panic Nat)) ∨
      ∃ body : Exec Nat Flags Int, Func.closure Flags.failing = Func.closure body ∧
        (body Flags.init).1 = Except.error (Panic.raised 7)) :=
  ⟨⟨rfl, (chain_steps_return (World.afterIf true) (Ptr.addr 0) { condition := true }
      Ptr.nil { condition := true, trueVal := 0 } Ptr.nil { condition := true, trueVal := Func.nil }
      10 20 Flags.trueVal Func.nil).1 rfl⟩,
    (chain_steps_return (World.afterThen true 10) Ptr.nil { condition := true }
      (Ptr.addr 0) { condition := true, trueVal := 10 }
      Ptr.nil { condition := true, trueVal := Func.nil }
      10 20 Flags.trueVal Func.nil).2.1 rfl,
    ((chain_steps_return (World.afterLThen false Flags.trueVal) Ptr.nil { condition := true }
      Ptr.nil { condition := true, trueVal := 0 }
      (Ptr.addr 0) { condition := false, trueVal := Flags.trueVal }
      10 20 Flags.trueVal (Func.closure Flags.failing)).2.2 rfl).2 (Panic.raised 7) rfl⟩

theorem shared_Then_run {σ ε T : Type} (i : Ptr (TernaryIf T)) (c : TernaryIf T) (a : T)
    (w : Shared.World σ ε T) (h : i.load w.ifs = some c) :
    Shared.TernaryIf.Then i a w = (Except.ok (Ptr.addr w.thens.length),
      { w with thens := w.thens ++ [{ condition := c.condition, trueVal := a }] }) := by
  simp [Shared.TernaryIf.Then, Exec.bind_eq, Exec.bind, Shared.World.loadIf,
    Shared.World.newThen, h]

theorem shared_LThen_run {σ ε T : Type} (i : Ptr (TernaryIf T)) (c : TernaryIf T)
    (p : Shared.FuncRef) (w : Shared.World σ ε T) (h : i.load w.ifs = some c) :
    Shared.TernaryIf.LThen i p w = (Except.ok (Ptr.addr w.lazyThens.length),
      { w with lazyThens := w.lazyThens ++ [{ condition := c.condition, trueVal := p }] }) := by
  simp [Shared.TernaryIf.LThen, Exec.bind_eq, Exec.bind, Shared.World.loadIf,
    Shared.World.newLazyThen, h]

theorem shared_Else_run {σ ε T : Type} (t : Ptr (TernaryThen T)) (c : TernaryThen T) (b : T)
    (w : Shared.World σ ε T) (h : t.load w.thens = some c) :
    Shared.TernaryThen.Else t b w = (Except.ok (Op c.condition c.trueVal b), w) := by
  simp [Shared.TernaryThen.Else, Exec.bind_eq, Exec.bind, Exec.pure_eq, Exec.pure,
    Shared.World.loadThen, h]

theorem shared_LElse_run {σ ε T : Type} (prog : Shared.Program σ ε T)
    (t : Ptr Shared.LazyTernaryThen) (c : Shared.LazyTernaryThen) (q : Shared.FuncRef)
    (w : Shared.World σ ε T) (h : t.load w.lazyThens = some c) :
    Shared.LazyTernaryThen.LElse prog t q w =
      ((if c.condition = true then c.trueVal else q).resolve prog).call w := by
  simp only [Shared.LazyTernaryThen.LElse, Exec.bind_eq, Exec.bind, Shared.World.loadLazyThen, h]
  rw [LazyOp_run]
  cases c.condition <;> rfl

theorem shared_reuseChain_run {σ ε T : Type} (cond : Bool) (a1 b1 a2 b2 : T)
    (w : Shared.World σ ε T) :
    Shared.reuseChain cond a1 b1 a2 b2 w = (Except.ok (Op cond a1 b1, Op cond a2 b2),
      { w with ifs := w.ifs ++ [{ condition := cond }],
               thens := (w.thens ++ [{ condition := cond, trueVal := a1 }]) ++
                 [{ condition := cond, trueVal := a2 }] }) := by
  have h0 : Shared.If cond w = (Except.ok (Ptr.addr w.ifs.length),
      ({ w with ifs := w.ifs ++ [{ condition := cond }] } : Shared.World σ ε T)) := rfl
  have h1 := shared_Then_run (Ptr.addr w.ifs.length) { condition := cond } a1
    ({ w with ifs := w.ifs ++ [{ condition := cond }] } : Shared.World σ ε T)
    (Ptr.load_fresh w.ifs _)
  have h2 := shared_Else_run (Ptr.addr w.thens.length) { condition := cond, trueVal := a1 } b1
    ({ w with ifs := w.ifs ++ [{ condition := cond }],
              thens := w.thens ++ [{ condition := cond, trueVal := a1 }] } : Shared.World σ ε T)
    (Ptr.load_fresh w.thens _)
  have h3 := shared_Then_run (Ptr.addr w.ifs.length) { condition := cond } a2
    ({ w with ifs := w.ifs ++ [{ condition := cond }],
              thens := w.thens ++ [{ condition := cond, trueVal := a1 }] } : Shared.World σ ε T)
    (Ptr.load_fresh w.ifs _)
  have h4 := shared_Else_run
    (Ptr.addr (w.thens ++ [({ condition := cond, trueVal := a1 } : TernaryThen T)]).length)
    { condition := cond, trueVal := a2 } b2
    ({ w with ifs := w.ifs ++ [{ condition := cond }],
              thens := (w.thens ++ [{ condition := cond, trueVal := a1 }]) ++
                [{ condition := cond, trueVal := a2 }] } : Shared.World σ ε T)
    (Ptr.load_fresh _ _)
  simp only [Shared.reuseChain, Exec.bind_eq, Exec.bind, Exec.pure_eq, Exec.pure, h0, h1, h2,
    h3, h4]

/-- C9, counterexample: with `t := If(true).LThen(p)` and
`p = func() int { *t = ternary.LazyTernaryThen[int]{}; return 10 }`, the call
`t.LElse(q)` returns 10 and leaves `t` with condition `false` and a nil true
branch, where before it had condition `true` and true branch `p`. -/
theorem holder_overwritten_during_LElse :
    (Ptr.addr 0).load (Shared.World.afterLThen true (Shared.FuncRef.closure 0)).lazyThens =
      some { condition := true, trueVal := Shared.FuncRef.closure 0 } ∧
    (Shared.LazyTernaryThen.LElse Shared.overwriting (Ptr.addr 0) (Shared.FuncRef.closure 1)
      (Shared.World.afterLThen true (Shared.FuncRef.closure 0))).1 = Except.ok 10 ∧
    (Ptr.addr 0).load (Shared.LazyTernaryThen.LElse Shared.overwriting (Ptr.addr 0)
      (Shared.FuncRef.closure 1)
      (Shared.World.afterLThen true (Shared.FuncRef.closure 0))).2.lazyThens =
      some { condition := false, trueVal := Shared.FuncRef.nil } :=
  ⟨rfl, rfl, rfl⟩

/-- C9, amended: the library mutates no holder after construction, on a heap
that caller code can reach.  `If(cond)` returns a fresh holder with condition
`cond` and changes nothing else.  For a holder `h` with condition `cond`,
`h.Then(a)` and `h.LThen(p)` return a fresh holder with condition `cond` and true
branch the argument and change nothing else, so `h` and every existing holder
stay as they were.  For a then-holder `t`, `t.Else(b)` leaves the whole state
unchanged.  For a lazy then-holder `l`, `l.LElse(q)` writes no holder itself: its
outcome and final state are those of the one producer it invokes, so `l` keeps
its condition and true branch unless that producer overwrites it.  From every
state `h := If(cond)` can be resolved twice: `h.Then(a1).Else(b1)` is
`Op(cond, a1, b1)` and afterwards `h.Then(a2).Else(b2)` is `Op(cond, a2, b2)`. -/
theorem holders_not_mutated {σ ε T : Type} (prog : Shared.Program σ ε T)
    (w : Shared.World σ ε T) (cond : Bool)
    (h : Ptr (TernaryIf T)) (t : Ptr (TernaryThen T)) (ct : TernaryThen T)
    (l : Ptr Shared.LazyTernaryThen) (cl : Shared.LazyTernaryThen)
    (a b a1 b1 a2 b2 : T) (p q : Shared.FuncRef) :
    (Shared.If cond w = (Except.ok (Ptr.addr w.ifs.length),
        { w with ifs := w.ifs ++ [{ condition := cond }] }) ∧
      (Ptr.addr w.ifs.length).load w.ifs = none ∧
      (Ptr.addr w.ifs.length).load (Shared.If cond w).2.ifs = some { condition := cond } ∧
      ∀ (h0 : Ptr (TernaryIf T)) (c0 : TernaryIf T), h0.load w.ifs = some c0 →
        h0.load (Shared.If cond w).2.ifs = some c0) ∧
    (h.load w.ifs = some { condition := cond } →
      Shared.TernaryIf.Then h a w = (Except.ok (Ptr.addr w.thens.length),
        { w with thens := w.thens ++ [{ condition := cond, trueVal := a }] }) ∧
      (Ptr.addr w.thens.length).load w.thens = none ∧
      (Ptr.addr w.thens.length).load (Shared.TernaryIf.Then h a w).2.thens =
        some { condition := cond, trueVal := a } ∧
      h.load (Shared.TernaryIf.Then h a w).2.ifs = some { condition := cond } ∧
      ∀ (t0 : Ptr (TernaryThen T)) (c0 : TernaryThen T), t0.load w.thens = some c0 →
        t0.load (Shared.TernaryIf.Then h a w).2.thens = some c0) ∧
    (h.load w.ifs = some { condition := cond } →
      Shared.TernaryIf.LThen h p w = (Except.ok (Ptr.addr w.lazyThens.length),
        { w with lazyThens := w.lazyThens ++ [{ condition := cond, trueVal := p }] }) ∧
      (Ptr.addr w.lazyThens.length).load w.lazyThens = none ∧
      (Ptr.addr w.lazyThens.length).load (Shared.TernaryIf.LThen h p w).2.lazyThens =
        some { condition := cond, trueVal := p } ∧
      h.load (Shared.TernaryIf.LThen h p w).2.ifs = some { condition := cond } ∧
      ∀ (l0 : Ptr Shared.LazyTernaryThen) (c0 : Shared.LazyTernaryThen),
        l0.load w.lazyThens = some c0 →
        l0.load (Shared.TernaryIf.LThen h p w).2.lazyThens = some c0) ∧
    (t.load w.thens = some ct →
      Shared.TernaryThen.Else t b w = (Except.ok (Op ct.condition ct.trueVal b), w) ∧
      t.load (Shared.TernaryThen.Else t b w).2.thens = some ct) ∧
    (l.load w.lazyThens = some cl →
      Shared.LazyTernaryThen.LElse prog l q w =
        ((if cl.condition = true then cl.trueVal else q).resolve prog).call w ∧
      (l.load (((if cl.condition = true then cl.trueVal else q).resolve prog).call w).2.lazyThens =
          some cl →
        l.load (Shared.LazyTernaryThen.LElse prog l q w).2.lazyThens = some cl)) ∧
    (Shared.reuseChain cond a1 b1 a2 b2 w).1 = Except.ok (Op cond a1 b1, Op cond a2 b2) := by
  refine ⟨⟨rfl, Ptr.load_length _, Ptr.load_fresh _ _, ?_⟩, fun hh => ?_, fun hh => ?_,
    fun ht => ?_, fun hl => ?_, ?_⟩
  · intro h0 c0 hc
    exact Ptr.load_append _ _ _ _ hc
  · have e := shared_Then_run h _ a w hh
    refine ⟨e, Ptr.load_length _, ?_, ?_, ?_⟩
    · rw [e]; exact Ptr.load_fresh _ _
    · rw [e]; exact hh
    · intro t0 c0 hc
      rw [e]; exact Ptr.load_append _ _ _ _ hc
  · have e := shared_LThen_run h _ p w hh
    refine ⟨e, Ptr.load_length _, ?_, ?_, ?_⟩
    · rw [e]; exact Ptr.load_fresh _ _
    · rw [e]; exact hh
    · intro l0 c0 hc
      rw [e]; exact Ptr.load_append _ _ _ _ hc
  · have e := shared_Else_run t ct b w ht
    refine ⟨e, ?_⟩
    rw [e]; exact ht
  · have e := shared_LElse_run prog l cl q w hl
    refine ⟨e, ?_⟩
    intro hkeep
    rw [e]; exact hkeep
  · rw [shared_reuseChain_run]

/-- C9, amended, on heaps built from the empty heap: `Then` and `LThen` on
`h := If(true)` while no then-holder exists, `Else` on `If(true).Then(5)`, `LElse`
on `If(false).LThen(p)` with a false-branch producer that writes nothing, and the
two resolutions of one holder on the empty heap. -/
theorem holders_not_mutated_witness :
    ((Shared.World.afterIf true).thens = [] ∧
      (Ptr.addr 0).load
          (Shared.TernaryIf.Then (Ptr.addr 0) (5 : Int) (Shared.World.afterIf true)).2.thens =
        some { condition := true, trueVal := 5 } ∧
      (Ptr.addr 0).load
          (Shared.TernaryIf.Then (Ptr.addr 0) (5 : Int) (Shared.World.afterIf true)).2.ifs =
        some { condition := true }) ∧
    ((Shared.World.afterIf true).lazyThens = [] ∧
      (Ptr.addr 0).load (Shared.TernaryIf.LThen (Ptr.addr 0) (Shared.FuncRef.closure 0)
          (Shared.World.afterIf true)).2.lazyThens =
        some { condition := true, trueVal := Shared.FuncRef.closure 0 }) ∧
    (Shared.TernaryThen.Else (Ptr.addr 0) (6 : Int) (Shared.World.afterThen true 5) =
      (Except.ok (Op true 5 6), Shared.World.afterThen true 5)) ∧
    ((Ptr.addr 0).load (Shared.LazyTernaryThen.LElse Shared.overwriting (Ptr.addr 0)
        (Shared.FuncRef.closure 1)
        (Shared.World.afterLThen false (Shared.FuncRef.closure 0))).2.lazyThens =
      some { condition := false, trueVal := Shared.FuncRef.closure 0 }) ∧
    ((Shared.reuseChain true (1 : Int) 2 3 4 (Shared.World.init () : Shared.World Unit Nat Int)).1 =
      Except.ok (Op true 1 2, Op true 3 4)) :=
  ⟨⟨rfl,
      ((holders_not_mutated Shared.overwriting (Shared.World.afterIf true) true (Ptr.addr 0)
        Ptr.nil { condition := true, trueVal := 0 } Ptr.nil
        { condition := true, trueVal := Shared.FuncRef.nil }
        5 6 1 2 3 4 (Shared.FuncRef.closure 0) (Shared.FuncRef.closure 1)).2.1 rfl).2.2.1,
      ((holders_not_mutated Shared.overwriting (Shared.World.afterIf true) true (Ptr.addr 0)
        Ptr.nil { condition := true, trueVal := 0 } Ptr.nil
        { condition := true, trueVal := Shared.FuncRef.nil }
        5 6 1 2 3 4 (Shared.FuncRef.closure 0) (Shared.FuncRef.closure 1)).2.1 rfl).2.2.2.1⟩,
    ⟨rfl,
      ((holders_not_mutated Shared.overwriting (Shared.World.afterIf true) true (Ptr.addr 0)
        Ptr.nil { condition := true, trueVal := 0 } Ptr.nil
        { condition := true, trueVal := Shared.FuncRef.nil }
        5 6 1 2 3 4 (Shared.FuncRef.closure 0) (Shared.FuncRef.closure 1)).2.2.1 rfl).2.2.1⟩,
    ((holders_not_mutated Shared.overwriting (Shared.World.afterThen true 5) true Ptr.nil
      (Ptr.addr 0) { condition := true, trueVal := 5 } Ptr.nil
      { condition := true, trueVal := Shared.FuncRef.nil }
      5 6 1 2 3 4 (Shared.FuncRef.closure 0) (Shared.FuncRef.closure 1)).2.2.2.1 rfl).1,
    ((holders_not_mutated Shared.overwriting
      (Shared.World.afterLThen false (Shared.FuncRef.closure 0)) true Ptr.nil
      Ptr.nil { condition := true, trueVal := 0 }
      (Ptr.addr 0) { condition := false, trueVal := Shared.FuncRef.closure 0 }
      5 6 1 2 3 4 (Shared.FuncRef.closure 0) (Shared.FuncRef.closure 1)).2.2.2.2.1 rfl).2 rfl,
    (holders_not_mutated Shared.overwriting (Shared.World.init ()) true Ptr.nil
      Ptr.nil { condition := true, trueVal := 0 } Ptr.nil
      { condition := true, trueVal := Shared.FuncRef.nil }
      5 6 1 2 3 4 (Shared.FuncRef.closure 0) (Shared.FuncRef.closure 1)).2.2.2.2.2⟩

/-- C10: the outcome and final state of `LazyOp` do not depend on the producer
that is not chosen.  `LazyOp(true, pa, pb)` and `LazyOp(true, pa, pb2)` both are
the call `pa()` alone, whatever `pb` and `pb2` are (nil, failing or
state-changing); `LazyOp(false, pa, pb)` and `LazyOp(false, pa2, pb)` both are
the call `pb()` alone. -/
theorem LazyOp_ignores_unchosen {σ ε T : Type} (pa pa2 pb pb2 : Func σ ε T) (s : σ) :
    (LazyOp true pa pb s = pa.call s ∧ LazyOp true pa pb2 s = pa.call s ∧
      LazyOp true pa pb s = LazyOp true pa pb2 s) ∧
    (LazyOp false pa pb s = pb.call s ∧ LazyOp false pa2 pb s = pb.call s ∧
      LazyOp false pa pb s = LazyOp false pa2 pb s) :=
  ⟨⟨rfl, rfl, rfl⟩, ⟨rfl, rfl, rfl⟩⟩

/-- C11: lazy and eager selection agree on pure branches.
`LazyOp(cond, func() T { return a }, func() T { return b })` returns
`Op(cond, a, b)` and leaves the state alone, and
`If(cond).LThen(func() T { return a }).LElse(func() T { return b })` has the
outcome and caller state of `If(cond).Then(a).Else(b)`, namely `Op(cond, a, b)`
and the initial caller state. -/
theorem lazy_agrees_with_eager_on_pure {σ ε T : Type} (cond : Bool) (a b : T) (s : σ)
    (w : World σ ε T) :
    (LazyOp cond (Func.returning a) (Func.returning b) s : Except (Panic ε) T × σ) =
      (Except.ok (Op cond a b), s) ∧
    World.observe (lazyChain cond (Func.returning a) (Func.returning b) w) =
      World.observe (eagerChain cond a b w) ∧
    World.observe (lazyChain cond (Func.returning a) (Func.returning b) w) =
      (Except.ok (Op cond a b), w.caller) := by
  have hL : ∀ s0 : σ, (LazyOp cond (Func.returning a) (Func.returning b) s0 :
      Except (Panic ε) T × σ) = (Except.ok (Op cond a b), s0) := by
    intro s0
    cases cond <;> rfl
  refine ⟨hL s, ?_, ?_⟩
  · rw [lazyChain_run, eagerChain_run, hL]; rfl
  · rw [lazyChain_run, hL]; rfl

/-- C12: negating the condition swaps the branches, `Op(!cond, a, b)` is
`Op(cond, b, a)`, and with equal branches the condition is irrelevant,
`Op(cond, a, a)` is `a`. -/
theorem Op_not_swaps {T : Type} (cond : Bool) (a b : T) :
    Op (!cond) a b = Op cond b a ∧ Op cond a a = a := by
  cases cond <;> exact ⟨rfl, rfl⟩

end Ternary
